import Mathlib

/-!
Verification development for the substitute-part datasheet comparison
application (TypeScript/React single-page app). The definitions below are a
shallow embedding of the repository's source:

* `src/components/FileUpload.tsx` — `processFile` (file ingestion and
  media-kind classification);
* `src/unnamed/part_002` — the shared types (`FileData`, `CompletenessResult`,
  `AnalysisResult`, …) and the service layer (`validateMimeType`, `isExcel`,
  `getFileContentPart`, `checkFileCompleteness`, `analyzeDatasheets`);
* `src/unnamed/part_001` — `exportCSV` inside `AnalysisTable`;
* `src/unnamed/part_000` — the `App` state container and its transition
  handlers (`handleDatasheetSelect`, `removeDatasheet`, the master-list
  `onFileSelect`, `handleCheckCompleteness`, `handleAnalyze`).

JavaScript strings are modelled as Lean `String` (a list of characters), and
the JS string methods used by the source (`includes`, `startsWith`,
`endsWith`, `trim`, `slice`-style drops, `replace` of all `"` occurrences)
are modelled explicitly below on the character list so that everything is
executable and provable.

External effects are made explicit: the Gemini remote call is modelled by
passing the decoded response payload as a parameter (exactly one outbound
call happens per service invocation, counted in `Effects`), and the
third-party `xlsx` workbook decoder is modelled as an environment
(`XlsxEnv`) mapping a base64 payload to the CSV flattening of the first
sheet, or `none` when the payload is not a valid workbook.
-/

/-- Model of JavaScript `String.prototype.includes` restricted to a pattern:
`listStrContains pat l` is true when `pat` occurs as a contiguous infix of
`l`. -/
def listStrContains (pat : List Char) : List Char → Bool
  | [] => pat.isPrefixOf ([] : List Char)
  | a :: rest => pat.isPrefixOf (a :: rest) || listStrContains pat rest

/-- JS `s.includes(pat)`. -/
def strContains (s pat : String) : Bool :=
  listStrContains pat.data s.data

/-- JS `s.startsWith(pre)`. -/
def jsStartsWith (s pre : String) : Bool :=
  pre.data.isPrefixOf s.data

/-- JS `s.endsWith(suf)`. -/
def jsEndsWith (s suf : String) : Bool :=
  suf.data.isSuffixOf s.data

/-- Drop the first `n` characters of a string (used to model removing a
matched leading regex such as `^```json\n`). -/
def strDrop (s : String) (n : Nat) : String :=
  String.mk (s.data.drop n)

/-- Drop the last `n` characters of a string (used to model removing a
matched trailing regex such as `\n```$`). -/
def strDropRight (s : String) (n : Nat) : String :=
  String.mk (s.data.take (s.data.length - n))

/-- Character-list core of JS `String.prototype.trim`: remove leading and
trailing whitespace. -/
def trimCharList (l : List Char) : List Char :=
  (((l.dropWhile Char.isWhitespace).reverse.dropWhile Char.isWhitespace).reverse)

/-- JS `s.trim()`. -/
def jsTrim (s : String) : String :=
  String.mk (trimCharList s.data)

/-- The backtick character, obtained from a string literal. -/
def fenceChar : Char := "`".data.headD ' '

/-- The browser `File` object, reduced to the two fields the source reads:
`name` and the browser-reported MIME `type`. -/
structure JsFile where
  name : String
  type : String
deriving DecidableEq, Repr

/-- `FileData` from `src/unnamed/part_002` (types module): the ingested file
record. `type` is the normalized media kind, one of the four string literals
of the TypeScript union. -/
structure FileData where
  id : String
  file : JsFile
  base64 : String
  type : String
deriving DecidableEq, Repr

/-- The spreadsheet MIME literal used throughout the source. -/
def xlsxMime : String :=
  "application/vnd.openxmlformats-officedocument.spreadsheetml.sheet"

/-- Media-kind classification of `processFile` in
`src/components/FileUpload.tsx` (lines 34–37): a chain of four independent
`if` statements reassigning `mimeType`, starting from the default
`application/pdf`. Because the `if`s are not `else`-chained, a later match
overwrites an earlier one. -/
def processFileType (fileType fileName : String) : String :=
  let m1 := "application/pdf"
  let m2 := if strContains fileType "png" then "image/png" else m1
  let m3 := if strContains fileType "jpeg" || strContains fileType "jpg" then "image/jpeg" else m2
  let m4 := if strContains fileType "sheet" || jsEndsWith fileName ".xlsx" then xlsxMime else m3
  m4

/-- `processFile` of `FileUploadCard`: reads the file, assigns a random id
(modelled as a parameter) and the classified media type. The base64 payload
produced by `fileToBase64` is likewise a parameter. -/
def processFile (file : JsFile) (base64 : String) (id : String) : FileData :=
  { id := id, file := file, base64 := base64, type := processFileType file.type file.name }

/-- The `supportedTypes` array of `validateMimeType` in
`src/unnamed/part_002` (lines 90–98). -/
def supportedTypes : List String :=
  [ "application/pdf",
    "image/png",
    "image/jpeg",
    "image/jpg",
    "image/webp",
    "application/vnd.openxmlformats-officedocument.spreadsheetml.sheet",
    "application/vnd.ms-excel" ]

/-- `validateMimeType` (part_002 lines 89–102): throws when the declared
type is not in the supported list; the thrown message interpolates the
rejected MIME type. -/
def validateMimeType (fileData : FileData) : Except String Unit :=
  if supportedTypes.contains fileData.type then Except.ok ()
  else Except.error ("Unsupported file type: " ++ fileData.type ++ ". Please upload PDF, Images, or Excel files.")

/-- `isExcel` (part_002 lines 104–106). -/
def isExcel (fileData : FileData) : Bool :=
  strContains fileData.type "spreadsheet" || strContains fileData.type "excel" ||
    jsEndsWith fileData.file.name ".xlsx" || jsEndsWith fileData.file.name ".xls"

/-- The prompt-part union produced by `getFileContentPart`: either a text
part or an inline binary part (`inlineData` with `mimeType` and base64
`data`). -/
inductive PromptPart where
  | text (t : String)
  | inlineData (mimeType : String) (data : String)
deriving DecidableEq, Repr

/-- Environment standing for the third-party `xlsx` library:
`sheetCsv b` is `XLSX.utils.sheet_to_csv` applied to the first sheet
(`workbook.SheetNames[0]`) of `XLSX.read(b, base64)`, or `none` when the
payload is not a valid workbook (in which case `XLSX.read` throws). -/
structure XlsxEnv where
  sheetCsv : String → Option String

/-- `getFileContentPart` (part_002 lines 109–131): Excel-routed files are
flattened to CSV and wrapped in the `DOCUMENT_CONTENT (…)` /
`[End of CSV content]` markers; everything else becomes an inline binary
part tagged with the stored media type. -/
def getFileContentPart (xlsx : XlsxEnv) (fileData : FileData) (label : String) :
    Except String PromptPart :=
  if isExcel fileData then
    match xlsx.sheetCsv fileData.base64 with
    | some csvText =>
        Except.ok (PromptPart.text
          ("DOCUMENT_CONTENT (" ++ label ++ "):\n" ++ csvText ++ "\n[End of CSV content]"))
    | none =>
        Except.error ("Failed to read Excel file: " ++ fileData.file.name ++
          ". Please ensure it is a valid .xlsx file.")
  else
    Except.ok (PromptPart.inlineData fileData.type fileData.base64)

/-- `CompletenessPart` from the types module (part_002 lines 46–50); the
spec calls this record `PartStatus`. `status` is the string enum
`'Provided' | 'Missing'` of the response schema. -/
structure CompletenessPart where
  partName : String
  status : String
  matchedFilename : Option String
deriving DecidableEq, Repr

/-- `CompletenessRow` (part_002 lines 52–55). -/
structure CompletenessRow where
  original : CompletenessPart
  substitutes : List CompletenessPart
deriving DecidableEq, Repr

/-- `CompletenessResult` (part_002 lines 57–61). -/
structure CompletenessResult where
  groupedRows : List CompletenessRow
  allProvided : Bool
  message : String
deriving DecidableEq, Repr

/-- Does every part (original and all substitutes) of every grouped row have
status `Provided`? This is the property the spec's `allProvided` invariant
talks about; the code itself never computes it. -/
def allStatusesProvided (r : CompletenessResult) : Bool :=
  r.groupedRows.all fun row =>
    row.original.status == "Provided" && row.substitutes.all fun p => p.status == "Provided"

/-- `SpecItem` (part_002 lines 7–17). Compliance levels are the enum's
string values, kept as strings as on the wire. -/
structure SpecItem where
  id : Int
  parameter : String
  unit : String
  valueA : String
  valueB : String
  complianceB : String
  valueC : String
  complianceC : String
  comment : String
deriving DecidableEq, Repr

/-- `mappedParts` of `ComparisonGroup` (part_002 lines 23–27). -/
structure MappedParts where
  partA : String
  partB : String
  partC : String
deriving DecidableEq, Repr

/-- `ComparisonGroup` (part_002 lines 20–31); `recommendation` is the string
enum `'B' | 'C' | 'None' | 'Both'`. -/
structure ComparisonGroup where
  id : String
  rowNumber : Int
  mappedParts : MappedParts
  summary : String
  recommendation : String
  specs : List SpecItem
deriving DecidableEq, Repr

/-- `AnalysisResult` (part_002 lines 33–36). -/
structure AnalysisResult where
  groups : List ComparisonGroup
  missingFiles : List String
deriving DecidableEq, Repr

/-- Observable side effects of one service invocation: how many files were
handed to the content normalizer (`getFileContentPart` calls) and how many
outbound `ai.models.generateContent` calls were issued. -/
structure Effects where
  normalizations : Nat
  generateCalls : Nat
deriving DecidableEq, Repr

/-- `checkFileCompleteness` (part_002 lines 134–228). The remote call is
modelled by the `response` parameter: `some r` stands for a reply whose
`result.text` decodes (after fence stripping) to the payload `r`, `none`
for a reply with no text. Errors thrown inside the `try` block are wrapped
in `"Check Failed: "`; the earlier validation / master-normalization throws
happen outside the `try` and propagate unwrapped. -/
def checkFileCompleteness (apiKey : Option String) (xlsx : XlsxEnv)
    (masterList : FileData) (filenames : List String)
    (response : Option CompletenessResult) :
    Except String CompletenessResult × Effects :=
  match apiKey with
  | none => (Except.error "API Key missing", ⟨0, 0⟩)
  | some _ =>
    match validateMimeType masterList with
    | Except.error e => (Except.error e, ⟨0, 0⟩)
    | Except.ok _ =>
      match getFileContentPart xlsx masterList "Master List" with
      | Except.error e => (Except.error e, ⟨1, 0⟩)
      | Except.ok _ =>
        match response with
        | none => (Except.error ("Check Failed: " ++ "No response from AI check."), ⟨1, 1⟩)
        | some r => (Except.ok r, ⟨1, 1⟩)

/-- The `datasheets.forEach(ds => validateMimeType(ds))` loop of
`analyzeDatasheets` (part_002 line 240): the first thrown error propagates. -/
def validateAll : List FileData → Except String Unit
  | [] => Except.ok ()
  | d :: rest =>
    match validateMimeType d with
    | Except.error e => Except.error e
    | Except.ok _ => validateAll rest

/-- The datasheet-normalization loop of `analyzeDatasheets` (part_002 lines
296–304), counting `getFileContentPart` calls; a throw stops the loop and
propagates. -/
def normalizeDatasheets (xlsx : XlsxEnv) : Nat → List FileData →
    Except String (List PromptPart) × Nat
  | _, [] => (Except.ok [], 0)
  | i, ds :: rest =>
    match getFileContentPart xlsx ds
        ("Datasheet File #" ++ toString (i + 1) ++ ": " ++ ds.file.name) with
    | Except.error e => (Except.error e, 1)
    | Except.ok p =>
      match normalizeDatasheets xlsx (i + 1) rest with
      | (Except.error e, n) => (Except.error e, n + 1)
      | (Except.ok ps, n) => (Except.ok (p :: ps), n + 1)

/-- `analyzeDatasheets` (part_002 lines 231–382), with the same conventions
as `checkFileCompleteness`. Order of operations follows the source: API-key
check, master validation, datasheet validation loop, master normalization,
empty-datasheet check, datasheet normalization loop, then the single
generate call whose decoded payload is the `response` parameter. -/
def analyzeDatasheets (apiKey : Option String) (xlsx : XlsxEnv)
    (masterList : FileData) (datasheets : List FileData)
    (response : Option AnalysisResult) :
    Except String AnalysisResult × Effects :=
  match apiKey with
  | none => (Except.error "API Key is missing. Please check your environment configuration.", ⟨0, 0⟩)
  | some _ =>
    match validateMimeType masterList with
    | Except.error e => (Except.error e, ⟨0, 0⟩)
    | Except.ok _ =>
      match validateAll datasheets with
      | Except.error e => (Except.error e, ⟨0, 0⟩)
      | Except.ok _ =>
        match getFileContentPart xlsx masterList "Master List" with
        | Except.error e => (Except.error e, ⟨1, 0⟩)
        | Except.ok _ =>
          if datasheets.isEmpty then
            (Except.error "No datasheets provided for analysis.", ⟨1, 0⟩)
          else
            match normalizeDatasheets xlsx 0 datasheets with
            | (Except.error e, n) => (Except.error e, ⟨1 + n, 0⟩)
            | (Except.ok _, n) =>
              match response with
              | none => (Except.error ("AI Analysis Failed: " ++ "No response from AI."), ⟨1 + n, 1⟩)
              | some r => (Except.ok r, ⟨1 + n, 1⟩)

/-- The code-fence stripping step shared by both services (part_002 lines
218–221 and 372–375): trim the raw text; when it starts with
`` ```json ``, remove a leading `` ```json\n `` (regex `^`-anchored) and a
trailing `` \n``` `` (regex `$`-anchored), each only if present. -/
def stripJsonFence (s : String) : String :=
  let t := jsTrim s
  if jsStartsWith t "```json" then
    let t1 := if jsStartsWith t "```json\n" then strDrop t 8 else t
    let t2 := if jsEndsWith t1 "\n```" then strDropRight t1 4 else t1
    t2
  else t

/-- JS `str.replace(/"/g, s!(two quotes))` on the character list: every `"`
becomes `""`. -/
def escQList : List Char → List Char
  | [] => []
  | c :: rest => if c = '"' then '"' :: '"' :: escQList rest else c :: escQList rest

/-- CSV double-quote escaping used throughout `exportCSV`
(`src/unnamed/part_001`). -/
def escapeQ (s : String) : String :=
  String.mk (escQList s.data)

/-- JS `value || fallback` for strings: the empty string is falsy. -/
def strOr (v fallback : String) : String :=
  if v = "" then fallback else v

/-- `getGroupLabel` of `AnalysisTable` (part_001 line 43):
`String.fromCharCode(65 + index)`. -/
def getGroupLabel (index : Nat) : String :=
  String.mk [Char.ofNat (65 + index)]

/-- One data row of the exported table (part_001 lines 88–110), as the
nine-entry array passed to `row.join(",")`. `s.id || ""` makes a zero id
print as the empty string. -/
def specRowFields (s : SpecItem) : List String :=
  [ (if s.id = 0 then "" else toString s.id),
    "\"" ++ escapeQ s.parameter ++ "\"",
    "\"" ++ escapeQ s.unit ++ "\"",
    "\"" ++ escapeQ s.valueA ++ "\"",
    "\"" ++ escapeQ s.valueB ++ "\"",
    "\"" ++ s.complianceB ++ "\"",
    "\"" ++ escapeQ s.valueC ++ "\"",
    "\"" ++ s.complianceC ++ "\"",
    "\"" ++ escapeQ s.comment ++ "\"" ]

/-- The header array of the per-group table (part_001 lines 73–83), passed to
`headers.join(",")`. -/
def groupHeaderFields (index : Nat) (group : ComparisonGroup) : List String :=
  let groupLabel := getGroupLabel index
  let partA := strOr group.mappedParts.partA "Part A"
  let partB := strOr group.mappedParts.partB "Part B"
  let partC := strOr group.mappedParts.partC "Part C"
  [ "ID", "Parameter", "Unit",
    "Spec " ++ groupLabel ++ " (" ++ escapeQ partA ++ ")",
    "Spec " ++ groupLabel ++ "-1 (" ++ escapeQ partB ++ ")",
    groupLabel ++ "-1 Result",
    "Spec " ++ groupLabel ++ "-2 (" ++ escapeQ partC ++ ")",
    groupLabel ++ "-2 Result",
    "Comment" ]

/-- The lines pushed onto `csvRows` for one group (part_001 lines 55–117):
three quoted header lines, the joined table header, one joined row per spec
item, then two empty spacer lines. -/
def groupRows (index : Nat) (group : ComparisonGroup) : List String :=
  let groupLabel := getGroupLabel index
  let partA := strOr group.mappedParts.partA "Part A"
  let summary := escapeQ group.summary
  let recommendation := strOr group.recommendation "-"
  [ "\"GROUP " ++ groupLabel ++ ": " ++ escapeQ partA ++ " vs Substitutes\"",
    "\"Summary: " ++ summary ++ "\"",
    "\"Recommendation: " ++ recommendation ++ "\"",
    String.intercalate "," (groupHeaderFields index group) ]
  ++ group.specs.map (fun s => String.intercalate "," (specRowFields s))
  ++ ["", ""]

/-- The `result.groups.forEach((group, index) => …)` accumulation of
`csvRows`. -/
def buildRows : Nat → List ComparisonGroup → List String
  | _, [] => []
  | i, g :: rest => groupRows i g ++ buildRows (i + 1) rest

/-- `exportCSV` (part_001 lines 45–135), reduced to its observable output:
`none` when there is nothing to export (the early-return alert), otherwise
the produced CSV text (`BOM + csvRows.join("\n")`) paired with the download
attribute set on the anchor element. -/
def exportCSV (result : AnalysisResult) : Option (String × String) :=
  if result.groups.isEmpty then none
  else
    some ("\uFEFF" ++ String.intercalate "\n" (buildRows 0 result.groups),
          "Substitution_Analysis_Report.csv")

/-- `AppState` (part_002 lines 63–71), the React state of `App`. -/
structure AppState where
  masterList : Option FileData
  datasheets : List FileData
  isAnalyzing : Bool
  isChecking : Bool
  checkResult : Option CompletenessResult
  result : Option AnalysisResult
  error : Option String
deriving DecidableEq, Repr

/-- `handleDatasheetSelect` (part_000 lines 20–31): appends the new files and
resets both stored results; a `null` argument leaves the state untouched. -/
def handleDatasheetSelect (s : AppState) (newFiles : Option (List FileData)) : AppState :=
  match newFiles with
  | none => s
  | some fs =>
    { s with datasheets := s.datasheets ++ fs, checkResult := none, result := none }

/-- `removeDatasheet` (part_000 lines 33–39): filters the file out and resets
only `checkResult`. -/
def removeDatasheet (s : AppState) (id : String) : AppState :=
  { s with datasheets := s.datasheets.filter (fun f => f.id ≠ id), checkResult := none }

/-- The master-list `onFileSelect` handler of `App` (part_000 line 141):
stores the selected file and resets only `checkResult`. -/
def masterListOnFileSelect (s : AppState) (f : Option FileData) : AppState :=
  { s with masterList := f, checkResult := none }

/-- `handleCheckCompleteness` (part_000 lines 42–54), composed with the
service model: the state observed after the async handler has finished.
The guard returns unchanged when no master list or no datasheets are
present; otherwise the loading flag is raised, the service runs, and the
success/failure continuation lowers it. -/
def handleCheckCompleteness (apiKey : Option String) (xlsx : XlsxEnv)
    (response : Option CompletenessResult) (s : AppState) : AppState :=
  match s.masterList with
  | none => s
  | some m =>
    if s.datasheets.isEmpty then s
    else
      let s1 := { s with isChecking := true, error := none }
      match (checkFileCompleteness apiKey xlsx m (s.datasheets.map fun d => d.file.name)
          response).1 with
      | Except.ok r => { s1 with isChecking := false, checkResult := some r }
      | Except.error msg =>
        { s1 with isChecking := false,
                  error := some ("檢查失敗 (Check Failed): " ++
                    strOr msg "Please check your API Key or File content.") }

/-- `handleAnalyze` (part_000 lines 57–72), composed with the service model,
same conventions as `handleCheckCompleteness`. -/
def handleAnalyze (apiKey : Option String) (xlsx : XlsxEnv)
    (response : Option AnalysisResult) (s : AppState) : AppState :=
  match s.masterList with
  | none => s
  | some m =>
    if s.datasheets.isEmpty then s
    else
      let s1 := { s with isAnalyzing := true, error := none }
      match (analyzeDatasheets apiKey xlsx m s.datasheets response).1 with
      | Except.ok r => { s1 with result := some r, isAnalyzing := false }
      | Except.error msg =>
        { s1 with isAnalyzing := false,
                  error := some (strOr msg "Analysis failed. Please try again.") }

/-- A trivial workbook environment for concrete evaluations: every payload
decodes to the one-row CSV `a,b`. -/
def xlsxDemo : XlsxEnv := ⟨fun _ => some "a,b"⟩

/-- A concrete PDF master list file. -/
def pdfMaster : FileData :=
  ⟨"m1", ⟨"master.pdf", "application/pdf"⟩, "QUJD", "application/pdf"⟩

/-- A concrete `.docx` file with its browser-reported MIME type, as it would
reach `validateMimeType` if handed to the service directly. -/
def docxFile : FileData :=
  ⟨"d9", ⟨"report.docx", "application/msword"⟩, "QUJD", "application/msword"⟩

/-- A concrete PDF datasheet. -/
def demoDatasheet : FileData :=
  ⟨"d1", ⟨"X.pdf", "application/pdf"⟩, "QUJE", "application/pdf"⟩

/-- A decoded remote completeness payload that violates the spec's
`allProvided` invariant: a part is `Missing` yet `allProvided` is `true`. -/
def badCompleteness : CompletenessResult :=
  ⟨[⟨⟨"X", "Missing", none⟩, []⟩], true, "All datasheets provided."⟩

/-- A decoded remote completeness payload satisfying the invariant. -/
def goodCompleteness : CompletenessResult :=
  ⟨[⟨⟨"X", "Provided", some "X.pdf"⟩, [⟨"Y", "Provided", some "Y.pdf"⟩]⟩], true, "ok"⟩

/-- A concrete spec item whose comment contains embedded double quotes. -/
def demoSpecItem : SpecItem :=
  ⟨1, "Vds", "V", "100", "95", "Fully Compliant", "90", "Partial / Review Needed",
   "Contains \"quotes\""⟩

/-- A concrete comparison group holding `demoSpecItem`. -/
def demoGroup : ComparisonGroup :=
  ⟨"g1", 1, ⟨"PA", "PB", "PC"⟩, "Summary", "B", [demoSpecItem]⟩

/-- A concrete analysis result with one group. -/
def demoAnalysis : AnalysisResult := ⟨[demoGroup], []⟩

/-- A concrete app state holding both computed results. -/
def demoAppState : AppState :=
  ⟨some pdfMaster, [demoDatasheet], false, false, some goodCompleteness, some demoAnalysis, none⟩

theorem str_mk_data (s : String) : String.mk s.data = s := rfl

theorem str_data_append (a b : String) : (a ++ b).data = a.data ++ b.data := rfl

theorem str_append_assoc (a b c : String) : (a ++ b) ++ c = a ++ (b ++ c) := by
  cases a with
  | mk x =>
    cases b with
    | mk y =>
      cases c with
      | mk z =>
        show String.mk ((x ++ y) ++ z) = String.mk (x ++ (y ++ z))
        rw [List.append_assoc]

theorem isPrefixOf_append_self (l1 l2 : List Char) : l1.isPrefixOf (l1 ++ l2) = true := by
  induction l1 with
  | nil => simp [List.isPrefixOf]
  | cons a as ih => simp [List.isPrefixOf, ih]

theorem listStrContains_of_startsWith (pat rest : List Char) :
    listStrContains pat (pat ++ rest) = true := by
  cases pat with
  | nil =>
    cases rest with
    | nil => simp [listStrContains, List.isPrefixOf]
    | cons r rs => simp [listStrContains, List.isPrefixOf]
  | cons p ps =>
    simp [listStrContains, isPrefixOf_append_self]

theorem listStrContains_of_endsWith (x pat : List Char) :
    listStrContains pat (x ++ pat) = true := by
  induction x with
  | nil =>
    simpa using listStrContains_of_startsWith pat []
  | cons a x ih => simp [listStrContains, ih]

theorem strContains_left (pre rest : String) : strContains (pre ++ rest) pre = true := by
  show listStrContains pre.data (pre ++ rest).data = true
  rw [str_data_append]
  exact listStrContains_of_startsWith pre.data rest.data

theorem strContains_right (x suf : String) : strContains (x ++ suf) suf = true := by
  show listStrContains suf.data (x ++ suf).data = true
  rw [str_data_append]
  exact listStrContains_of_endsWith x.data suf.data

theorem processFileType_cases (t n : String) :
    processFileType t n =
      (if strContains t "sheet" || jsEndsWith n ".xlsx" then xlsxMime
       else if strContains t "jpeg" || strContains t "jpg" then "image/jpeg"
       else if strContains t "png" then "image/png"
       else "application/pdf") := by
  unfold processFileType
  cases hs : strContains t "sheet" <;>
  cases hx : jsEndsWith n ".xlsx" <;>
  cases hj : strContains t "jpeg" <;>
  cases hg : strContains t "jpg" <;>
  cases hp : strContains t "png" <;>
  simp [hs, hx, hj, hg, hp]

theorem processFileType_mem (t n : String) :
    processFileType t n = "application/pdf" ∨ processFileType t n = "image/png" ∨
    processFileType t n = "image/jpeg" ∨ processFileType t n = xlsxMime := by
  rw [processFileType_cases]
  split_ifs <;> simp

/-- C6 (amended): `processFile`'s classification is a chain of independent
`if` statements where the LAST matching rule wins, i.e. it is equivalent to
the reversed priority order: media type containing "sheet" or filename
ending ".xlsx" gives SPREADSHEET; else type containing "jpeg"/"jpg" gives
JPEG; else type containing "png" gives PNG; otherwise PDF. -/
theorem processFile_priority_spec (t n : String) :
    processFileType t n =
      (if strContains t "sheet" || jsEndsWith n ".xlsx" then xlsxMime
       else if strContains t "jpeg" || strContains t "jpg" then "image/jpeg"
       else if strContains t "png" then "image/png"
       else "application/pdf") :=
  processFileType_cases t n

/-- C6 counterexample: a file whose browser media type contains "png" but
whose filename ends in ".xlsx" is classified SPREADSHEET, not PNG as the
claim's first-match priority order would require. -/
theorem processFileType_png_xlsx_cex :
    processFileType "image/png" "a.xlsx" = xlsxMime ∧ xlsxMime ≠ "image/png" :=
  ⟨rfl, by decide⟩

/-- C10: every `FileData` produced by ingestion (`processFile`) has one of
exactly four media-type values (any unrecognized type defaults to
`application/pdf`), and consequently `validateMimeType` never throws on an
ingested file — its unsupported-type branch is unreachable from the upload
widget, whatever the browser type (including `.docx` or webp inputs). -/
theorem processFile_type_supported_spec (t n b i : String) :
    ((processFile ⟨n, t⟩ b i).type = "application/pdf" ∨
     (processFile ⟨n, t⟩ b i).type = "image/png" ∨
     (processFile ⟨n, t⟩ b i).type = "image/jpeg" ∨
     (processFile ⟨n, t⟩ b i).type = xlsxMime) ∧
    validateMimeType (processFile ⟨n, t⟩ b i) = Except.ok () := by
  have hty : (processFile ⟨n, t⟩ b i).type = processFileType t n := rfl
  constructor
  · rw [hty]; exact processFileType_mem t n
  · rcases processFileType_mem t n with h | h | h | h <;>
      · simp only [validateMimeType, hty, h]
        rfl

/-- C3 (amended): for every ingested file (produced by `processFile`):
if its content kind is SPREADSHEET, every successful normalization returns a
text `PromptPart` wrapping the first sheet's CSV flattening between the
literal markers `DOCUMENT_CONTENT (` and `[End of CSV content]`; if its
kind is PDF/PNG/JPEG **and its filename does not end in `.xls`**, it
returns a binary `PromptPart` whose media kind equals the file's stored
media kind exactly. (The `.xls` proviso is forced by the counterexample:
`isExcel` also matches on a `.xls` filename, overriding the PDF kind.) -/
theorem getFileContentPart_ingested_spec (xlsx : XlsxEnv) (t n b i label : String) :
    ((processFile ⟨n, t⟩ b i).type = xlsxMime →
      ∀ p, getFileContentPart xlsx (processFile ⟨n, t⟩ b i) label = Except.ok p →
        ∃ csv, xlsx.sheetCsv b = some csv ∧
          p = PromptPart.text
              ("DOCUMENT_CONTENT (" ++ label ++ "):\n" ++ csv ++ "\n[End of CSV content]") ∧
          strContains ("DOCUMENT_CONTENT (" ++ label ++ "):\n" ++ csv ++ "\n[End of CSV content]")
            "DOCUMENT_CONTENT (" = true ∧
          strContains ("DOCUMENT_CONTENT (" ++ label ++ "):\n" ++ csv ++ "\n[End of CSV content]")
            "[End of CSV content]" = true) ∧
    (((processFile ⟨n, t⟩ b i).type = "application/pdf" ∨
      (processFile ⟨n, t⟩ b i).type = "image/png" ∨
      (processFile ⟨n, t⟩ b i).type = "image/jpeg") →
      jsEndsWith n ".xls" = false →
      getFileContentPart xlsx (processFile ⟨n, t⟩ b i) label =
        Except.ok (PromptPart.inlineData (processFile ⟨n, t⟩ b i).type b)) := by
  constructor
  · intro hty p hp
    have hsheet : strContains xlsxMime "spreadsheet" = true := by decide
    have hex : isExcel (processFile ⟨n, t⟩ b i) = true := by
      unfold isExcel
      rw [hty]
      simp [hsheet]
    simp only [getFileContentPart, hex, if_true] at hp
    have hb64 : (processFile ⟨n, t⟩ b i).base64 = b := rfl
    rw [hb64] at hp
    cases hcsv : xlsx.sheetCsv b with
    | none => rw [hcsv] at hp; exact absurd hp (by simp)
    | some csv =>
      rw [hcsv] at hp
      refine ⟨csv, rfl, ?_, ?_, ?_⟩
      · exact (Except.ok.injEq _ _ ▸ hp).symm ▸ rfl
      · have hassoc :
            "DOCUMENT_CONTENT (" ++ label ++ "):\n" ++ csv ++ "\n[End of CSV content]" =
              "DOCUMENT_CONTENT (" ++
                (label ++ ("):\n" ++ (csv ++ "\n[End of CSV content]"))) := by
          rw [str_append_assoc, str_append_assoc, str_append_assoc]
        rw [hassoc]
        exact strContains_left _ _
      · have hsplit : ("\n[End of CSV content]" : String) = "\n" ++ "[End of CSV content]" := by
          decide
        have hassoc :
            "DOCUMENT_CONTENT (" ++ label ++ "):\n" ++ csv ++ "\n[End of CSV content]" =
              ("DOCUMENT_CONTENT (" ++ label ++ "):\n" ++ csv ++ "\n") ++
                "[End of CSV content]" := by
          rw [hsplit]
          simp [str_append_assoc]
        rw [hassoc]
        exact strContains_right _ _
  · intro hty hxls
    have hsc : (strContains t "sheet" || jsEndsWith n ".xlsx") = false := by
      cases hb : (strContains t "sheet" || jsEndsWith n ".xlsx") with
      | false => rfl
      | true =>
        exfalso
        have hcase := processFileType_cases t n
        rw [hb] at hcase
        simp at hcase
        have hty' : (processFile ⟨n, t⟩ b i).type = processFileType t n := rfl
        rcases hty with h | h | h <;>
          · rw [hty', hcase] at h
            exact absurd h (by decide)
    have hxlsx : jsEndsWith n ".xlsx" = false := by
      cases h2 : jsEndsWith n ".xlsx" with
      | false => rfl
      | true => rw [h2] at hsc; simp at hsc
    have hnm : (processFile ⟨n, t⟩ b i).file.name = n := rfl
    have hexf : isExcel (processFile ⟨n, t⟩ b i) = false := by
      unfold isExcel
      rw [hnm, hxlsx, hxls]
      rcases hty with h | h | h <;> rw [h] <;> decide
    have hb64 : (processFile ⟨n, t⟩ b i).base64 = b := rfl
    unfold getFileContentPart
    rw [hexf, hb64]
    simp

/-- C3 counterexample: the ingested file `legacy.xls` (browser-reported type
empty) is classified `application/pdf` by `processFile`, yet
`getFileContentPart` routes it through the Excel path (because `isExcel`
also matches a `.xls` filename) and returns a TEXT part — not a binary part
preserving the PDF media kind, as the claim requires for PDF-kind files. -/
theorem getFileContentPart_pdf_xls_cex :
    (processFile ⟨"legacy.xls", ""⟩ "QUJD" "id1").type = "application/pdf" ∧
    getFileContentPart xlsxDemo (processFile ⟨"legacy.xls", ""⟩ "QUJD" "id1")
        "Datasheet File #1: legacy.xls" =
      Except.ok (PromptPart.text
        "DOCUMENT_CONTENT (Datasheet File #1: legacy.xls):\na,b\n[End of CSV content]") := by
  exact ⟨rfl, rfl⟩

/-- C3 witness: the amended theorem applied at a concrete PDF master-list
file (binary branch) and at a concrete `.xlsx` file (spreadsheet branch). -/
theorem getFileContentPart_ingested_spec_witness :
    (getFileContentPart xlsxDemo (processFile ⟨"master.pdf", "application/pdf"⟩ "QUJD" "m1")
        "Master List" =
      Except.ok (PromptPart.inlineData
        (processFile ⟨"master.pdf", "application/pdf"⟩ "QUJD" "m1").type "QUJD")) ∧
    (∃ csv, xlsxDemo.sheetCsv "QUJD" = some csv ∧
      PromptPart.text "DOCUMENT_CONTENT (Master List):\na,b\n[End of CSV content]" =
        PromptPart.text
          ("DOCUMENT_CONTENT (" ++ "Master List" ++ "):\n" ++ csv ++ "\n[End of CSV content]") ∧
      strContains ("DOCUMENT_CONTENT (" ++ "Master List" ++ "):\n" ++ csv ++ "\n[End of CSV content]")
        "DOCUMENT_CONTENT (" = true ∧
      strContains ("DOCUMENT_CONTENT (" ++ "Master List" ++ "):\n" ++ csv ++ "\n[End of CSV content]")
        "[End of CSV content]" = true) := by
  constructor
  · exact (getFileContentPart_ingested_spec xlsxDemo "application/pdf" "master.pdf" "QUJD" "m1"
      "Master List").2 (Or.inl rfl) rfl
  · exact (getFileContentPart_ingested_spec xlsxDemo "" "m.xlsx" "QUJD" "m2" "Master List").1 rfl
      (PromptPart.text "DOCUMENT_CONTENT (Master List):\na,b\n[End of CSV content]") rfl

/-- C1 (amended): `checkFileCompleteness` performs no local reconciliation —
on success it returns the decoded remote payload verbatim, so the returned
`allProvided` is true iff every part has status `Provided` exactly when the
remote payload itself already satisfies that biconditional; the code does
not enforce the invariant. -/
theorem checkFileCompleteness_passthrough (key : String) (xlsx : XlsxEnv)
    (m : FileData) (fns : List String) (r out : CompletenessResult)
    (h : (checkFileCompleteness (some key) xlsx m fns (some r)).1 = Except.ok out) :
    out = r ∧ (r.allProvided = allStatusesProvided r →
      (out.allProvided = true ↔ allStatusesProvided out = true)) := by
  have hout : out = r := by
    unfold checkFileCompleteness at h
    cases hv : validateMimeType m with
    | error e => rw [hv] at h; simp at h
    | ok u =>
      cases u
      rw [hv] at h
      cases hc : getFileContentPart xlsx m "Master List" with
      | error e => rw [hc] at h; simp at h
      | ok p =>
        rw [hc] at h
        simp at h
        exact h.symm
  refine ⟨hout, ?_⟩
  intro he
  subst hout
  rw [he]

/-- C1 counterexample: a decoded remote payload with a `Missing` part but
`allProvided = true` is returned unchanged by `checkFileCompleteness`, so
the returned `allProvided` is true while not every `PartStatus` is
`Provided` — the claimed invariant does not hold of the code's output. -/
theorem checkFileCompleteness_allProvided_cex :
    (checkFileCompleteness (some "k") xlsxDemo pdfMaster ["X.pdf"] (some badCompleteness)).1 =
      Except.ok badCompleteness ∧
    badCompleteness.allProvided = true ∧
    allStatusesProvided badCompleteness = false :=
  ⟨rfl, rfl, rfl⟩

/-- C1 witness: the amended theorem applied at a concrete invocation whose
remote payload does satisfy the invariant. -/
theorem checkFileCompleteness_passthrough_witness :
    goodCompleteness.allProvided = true ↔ allStatusesProvided goodCompleteness = true :=
  (checkFileCompleteness_passthrough "k" xlsxDemo pdfMaster [] goodCompleteness
    goodCompleteness rfl).2 (by decide)

/-- C2: invoking `analyzeDatasheets` with an empty datasheet list (API key
configured, master list valid and normalizable) fails with the
input-validation error `No datasheets provided for analysis.` and performs
zero outbound generation calls. -/
theorem analyzeDatasheets_empty_spec (key : String) (xlsx : XlsxEnv) (m : FileData)
    (resp : Option AnalysisResult)
    (hvalid : validateMimeType m = Except.ok ())
    (hnorm : ∃ p, getFileContentPart xlsx m "Master List" = Except.ok p) :
    analyzeDatasheets (some key) xlsx m [] resp =
      (Except.error "No datasheets provided for analysis.", ⟨1, 0⟩) := by
  obtain ⟨p, hp⟩ := hnorm
  unfold analyzeDatasheets
  rw [hvalid]
  simp [validateAll, hp]

/-- C2 witness: the theorem applied at a concrete PDF master list. -/
theorem analyzeDatasheets_empty_spec_witness :
    analyzeDatasheets (some "k") xlsxDemo pdfMaster [] none =
      (Except.error "No datasheets provided for analysis.", ⟨1, 0⟩) :=
  analyzeDatasheets_empty_spec "k" xlsxDemo pdfMaster none rfl
    ⟨PromptPart.inlineData "application/pdf" "QUJD", rfl⟩

theorem validateAll_error (ds : List FileData)
    (h : ∃ d, d ∈ ds ∧ supportedTypes.contains d.type = false) :
    ∃ t, (∃ d, d ∈ ds ∧ t = d.type) ∧ supportedTypes.contains t = false ∧
      validateAll ds = Except.error
        ("Unsupported file type: " ++ t ++ ". Please upload PDF, Images, or Excel files.") := by
  induction ds with
  | nil => obtain ⟨d, hd, _⟩ := h; simp at hd
  | cons a rest ih =>
    cases hc : supportedTypes.contains a.type with
    | false =>
      refine ⟨a.type, ⟨a, by simp, rfl⟩, hc, ?_⟩
      unfold validateAll validateMimeType
      rw [hc]
      simp
    | true =>
      obtain ⟨d, hd, hdf⟩ := h
      rcases List.mem_cons.mp hd with rfl | hdrest
      · rw [hc] at hdf; cases hdf
      · obtain ⟨u, hu1, hu2, hu3⟩ := ih ⟨d, hdrest, hdf⟩
        refine ⟨u, ?_, hu2, ?_⟩
        · obtain ⟨d2, hd2, he⟩ := hu1
          exact ⟨d2, List.mem_cons_of_mem _ hd2, he⟩
        · unfold validateAll validateMimeType
          rw [hc]
          simpa using hu3

/-- C5 (amended): when any supplied file (master list or datasheet) has a
declared media kind outside the supported set, `analyzeDatasheets` fails
before any content is normalized with an unsupported-type error whose
message names the rejected MEDIA TYPE (not the filename). -/
theorem analyzeDatasheets_unsupported_spec (key : String) (xlsx : XlsxEnv)
    (m : FileData) (ds : List FileData) (resp : Option AnalysisResult)
    (h : supportedTypes.contains m.type = false ∨
         ∃ d, d ∈ ds ∧ supportedTypes.contains d.type = false) :
    ∃ t, (t = m.type ∨ ∃ d, d ∈ ds ∧ t = d.type) ∧
      supportedTypes.contains t = false ∧
      (analyzeDatasheets (some key) xlsx m ds resp).1 =
        Except.error ("Unsupported file type: " ++ t ++ ". Please upload PDF, Images, or Excel files.") ∧
      (analyzeDatasheets (some key) xlsx m ds resp).2 = ⟨0, 0⟩ := by
  cases hm : supportedTypes.contains m.type with
  | false =>
    refine ⟨m.type, Or.inl rfl, hm, ?_, ?_⟩ <;>
      · unfold analyzeDatasheets validateMimeType
        rw [hm]
        simp
  | true =>
    have hds : ∃ d, d ∈ ds ∧ supportedTypes.contains d.type = false := by
      rcases h with h1 | h2
      · rw [hm] at h1; cases h1
      · exact h2
    obtain ⟨u, hu1, hu2, hu3⟩ := validateAll_error ds hds
    refine ⟨u, Or.inr hu1, hu2, ?_, ?_⟩ <;>
      · unfold analyzeDatasheets validateMimeType
        rw [hm]
        simp [hu3]

/-- C5 counterexample: for `report.docx` with declared type
`application/msword`, the thrown message names the rejected type but does
NOT name the rejected file, contrary to the claim's wording. -/
theorem validateMimeType_message_cex :
    validateMimeType docxFile =
      Except.error
        "Unsupported file type: application/msword. Please upload PDF, Images, or Excel files." ∧
    strContains
      "Unsupported file type: application/msword. Please upload PDF, Images, or Excel files."
      "report.docx" = false ∧
    strContains
      "Unsupported file type: application/msword. Please upload PDF, Images, or Excel files."
      "application/msword" = true :=
  ⟨rfl, by decide, by decide⟩

/-- C5 witness: the amended theorem applied at a concrete `.docx` datasheet
alongside a valid PDF master list. -/
theorem analyzeDatasheets_unsupported_spec_witness :
    ∃ t, (t = pdfMaster.type ∨ ∃ d, d ∈ [docxFile] ∧ t = d.type) ∧
      supportedTypes.contains t = false ∧
      (analyzeDatasheets (some "k") xlsxDemo pdfMaster [docxFile] none).1 =
        Except.error ("Unsupported file type: " ++ t ++ ". Please upload PDF, Images, or Excel files.") ∧
      (analyzeDatasheets (some "k") xlsxDemo pdfMaster [docxFile] none).2 = ⟨0, 0⟩ :=
  analyzeDatasheets_unsupported_spec "k" xlsxDemo pdfMaster [docxFile] none
    (Or.inr ⟨docxFile, by simp, by decide⟩)

/-- C7 (amended): adding datasheets (`handleDatasheetSelect`) discards both
stored results; removing a datasheet (`removeDatasheet`) and replacing the
master list (the `onFileSelect` handler) discard only the stored
completeness result and leave the stored analysis result unchanged. -/
theorem upstreamChange_reset_spec (s : AppState) (fs : List FileData) (fid : String)
    (f : Option FileData) :
    (handleDatasheetSelect s (some fs)).checkResult = none ∧
    (handleDatasheetSelect s (some fs)).result = none ∧
    (removeDatasheet s fid).checkResult = none ∧
    (removeDatasheet s fid).result = s.result ∧
    (masterListOnFileSelect s f).checkResult = none ∧
    (masterListOnFileSelect s f).result = s.result :=
  ⟨rfl, rfl, rfl, rfl, rfl, rfl⟩

/-- C7 counterexample: from a state holding a computed `AnalysisResult`,
removing a datasheet and replacing the master list both leave that result in
place — the transition does not discard it, contrary to the claim. -/
theorem removeDatasheet_keeps_result_cex :
    (removeDatasheet demoAppState "d1").result = some demoAnalysis ∧
    (masterListOnFileSelect demoAppState (some pdfMaster)).result = some demoAnalysis ∧
    some demoAnalysis ≠ (none : Option AnalysisResult) :=
  ⟨rfl, rfl, by simp⟩

/-- C9: whenever the completeness-check or analysis phase actually runs (a
master list and at least one datasheet are present, so the handler's guard
passes), the corresponding loading flag is false in the resulting state, on
both the success and the failure path — the `response` parameter (and the
API key) range over both outcomes. -/
theorem loadingFlags_cleared_spec (key : Option String) (xlsx : XlsxEnv)
    (respC : Option CompletenessResult) (respA : Option AnalysisResult) (s : AppState)
    (hm : s.masterList ≠ none) (hd : s.datasheets ≠ []) :
    (handleCheckCompleteness key xlsx respC s).isChecking = false ∧
    (handleAnalyze key xlsx respA s).isAnalyzing = false := by
  obtain ⟨m, hm'⟩ := Option.ne_none_iff_exists'.mp hm
  have hde : s.datasheets.isEmpty = false := by
    cases hds : s.datasheets with
    | nil => exact absurd hds hd
    | cons a l => rfl
  constructor
  · unfold handleCheckCompleteness
    rw [hm', hde]
    simp only [Bool.false_eq_true, if_false]
    cases (checkFileCompleteness key xlsx m (s.datasheets.map fun d => d.file.name) respC).1 <;>
      rfl
  · unfold handleAnalyze
    rw [hm', hde]
    simp only [Bool.false_eq_true, if_false]
    cases (analyzeDatasheets key xlsx m s.datasheets respA).1 <;> rfl

/-- C9 witness: the theorem applied at a concrete state with a missing API
key, exercising the failure path of both phases. -/
theorem loadingFlags_cleared_spec_witness :
    (handleCheckCompleteness none xlsxDemo none demoAppState).isChecking = false ∧
    (handleAnalyze none xlsxDemo none demoAppState).isAnalyzing = false :=
  loadingFlags_cleared_spec none xlsxDemo none none demoAppState
    (by simp [demoAppState]) (by simp [demoAppState])

/-- C8: for every non-empty `AnalysisResult`, `exportCSV` downloads under the
fixed filename `Substitution_Analysis_Report.csv` and produces CSV text
beginning with a UTF-8 byte-order mark, in which every group contributes
three header lines (group title, summary, recommendation) followed by a
9-column table whose quoted string fields use `""` escaping, and two blank
spacer lines. -/
theorem exportCSV_format_spec (result : AnalysisResult) (h : result.groups ≠ []) :
    ∃ csv, exportCSV result = some (csv, "Substitution_Analysis_Report.csv") ∧
      jsStartsWith csv "\uFEFF" = true ∧
      (∀ i g, ∃ titleLine sumLine recLine,
        groupRows i g = titleLine :: sumLine :: recLine ::
          String.intercalate "," (groupHeaderFields i g) ::
          (g.specs.map (fun sp => String.intercalate "," (specRowFields sp)) ++ ["", ""])) ∧
      (∀ i g, (groupHeaderFields i g).length = 9) ∧
      (∀ sp, (specRowFields sp).length = 9) ∧
      (∀ sp, ∃ pre, specRowFields sp = pre ++ ["\"" ++ escapeQ sp.comment ++ "\""]) ∧
      escapeQ "Contains \"quotes\"" = "Contains \"\"quotes\"\"" := by
  have hne : result.groups.isEmpty = false := by
    cases hg : result.groups with
    | nil => exact absurd hg h
    | cons a l => rfl
  refine ⟨"\uFEFF" ++ String.intercalate "\n" (buildRows 0 result.groups),
    ?_, ?_, ?_, ?_, ?_, ?_, ?_⟩
  · unfold exportCSV
    rw [hne]
    simp
  · show ("\uFEFF" : String).data.isPrefixOf
      (("\uFEFF" ++ String.intercalate "\n" (buildRows 0 result.groups)).data) = true
    rw [str_data_append]
    exact isPrefixOf_append_self _ _
  · intro i g
    exact ⟨_, _, _, rfl⟩
  · intro i g; rfl
  · intro sp; rfl
  · intro sp
    refine ⟨[ (if sp.id = 0 then "" else toString sp.id),
              "\"" ++ escapeQ sp.parameter ++ "\"",
              "\"" ++ escapeQ sp.unit ++ "\"",
              "\"" ++ escapeQ sp.valueA ++ "\"",
              "\"" ++ escapeQ sp.valueB ++ "\"",
              "\"" ++ sp.complianceB ++ "\"",
              "\"" ++ escapeQ sp.valueC ++ "\"",
              "\"" ++ sp.complianceC ++ "\"" ], rfl⟩
  · rfl

/-- C8 witness: the theorem applied at the concrete one-group result whose
spec item carries the comment `Contains "quotes"`. -/
theorem exportCSV_format_spec_witness :
    ∃ csv, exportCSV demoAnalysis = some (csv, "Substitution_Analysis_Report.csv") ∧
      jsStartsWith csv "\uFEFF" = true := by
  obtain ⟨csv, h1, h2, _⟩ := exportCSV_format_spec demoAnalysis (by simp [demoAnalysis])
  exact ⟨csv, h1, h2⟩

theorem trimCharList_backtick (mid : List Char) :
    trimCharList (fenceChar :: (mid ++ [fenceChar])) = fenceChar :: (mid ++ [fenceChar]) := by
  have hws : fenceChar.isWhitespace = false := by decide
  unfold trimCharList
  rw [List.dropWhile_cons]
  simp only [hws, Bool.false_eq_true, if_false]
  rw [show (fenceChar :: (mid ++ [fenceChar])).reverse =
    fenceChar :: (mid.reverse ++ [fenceChar]) by simp]
  rw [List.dropWhile_cons]
  simp only [hws, Bool.false_eq_true, if_false]
  simp

/-- C4: the fence-stripping step of response parsing is the identity on an
already-trimmed response text that carries no fence, and on a response that
wraps the same text in a ```json code fence (leading fence line, trailing
fence line) it returns the very same string — hence structured decoding of
the wrapped and the unwrapped response yields the same object. -/
theorem stripJsonFence_spec (t : String) (h1 : jsTrim t = t)
    (h2 : jsStartsWith t "```json" = false) :
    stripJsonFence ("```json\n" ++ t ++ "\n```") = stripJsonFence t ∧
    stripJsonFence t = t := by
  have hnoop : stripJsonFence t = t := by
    unfold stripJsonFence
    rw [h1]
    simp [h2]
  refine ⟨?_, hnoop⟩
  rw [hnoop]
  have hwdata : ("```json\n" ++ t ++ "\n```").data =
      fenceChar :: fenceChar :: fenceChar :: 'j' :: 's' :: 'o' :: 'n' :: '\n' ::
        (t.data ++ ['\n', fenceChar, fenceChar, fenceChar]) := by
    show (("```json\n" ++ t) ++ "\n```").data = _
    rw [str_data_append, str_data_append]
    have hA : ("```json\n" : String).data =
        [fenceChar, fenceChar, fenceChar, 'j', 's', 'o', 'n', '\n'] := rfl
    have hB : ("\n```" : String).data = ['\n', fenceChar, fenceChar, fenceChar] := rfl
    rw [hA, hB, List.append_assoc]
    rfl
  have hform : fenceChar :: fenceChar :: fenceChar :: 'j' :: 's' :: 'o' :: 'n' :: '\n' ::
      (t.data ++ ['\n', fenceChar, fenceChar, fenceChar]) =
      fenceChar :: ((fenceChar :: fenceChar :: 'j' :: 's' :: 'o' :: 'n' :: '\n' ::
        (t.data ++ ['\n', fenceChar, fenceChar])) ++ [fenceChar]) := by
    simp
  have htrim : jsTrim ("```json\n" ++ t ++ "\n```") = "```json\n" ++ t ++ "\n```" := by
    unfold jsTrim
    rw [hwdata, hform, trimCharList_backtick, ← hform, ← hwdata, str_mk_data]
  have hstart7 : jsStartsWith ("```json\n" ++ t ++ "\n```") "```json" = true := by
    unfold jsStartsWith
    have hre : ("```json\n" ++ t ++ "\n```").data = ("```json" : String).data ++
        ('\n' :: (t.data ++ ['\n', fenceChar, fenceChar, fenceChar])) := by
      rw [hwdata]; rfl
    rw [hre]
    exact isPrefixOf_append_self _ _
  have hstart8 : jsStartsWith ("```json\n" ++ t ++ "\n```") "```json\n" = true := by
    unfold jsStartsWith
    have hre : ("```json\n" ++ t ++ "\n```").data = ("```json\n" : String).data ++
        (t.data ++ ['\n', fenceChar, fenceChar, fenceChar]) := by
      rw [hwdata]; rfl
    rw [hre]
    exact isPrefixOf_append_self _ _
  have hdrop : strDrop ("```json\n" ++ t ++ "\n```") 8 =
      String.mk (t.data ++ ['\n', fenceChar, fenceChar, fenceChar]) := by
    unfold strDrop
    rw [hwdata]
    rfl
  have hend : jsEndsWith (String.mk (t.data ++ ['\n', fenceChar, fenceChar, fenceChar]))
      "\n```" = true := by
    unfold jsEndsWith
    show ("\n```" : String).data.isSuffixOf (t.data ++ ['\n', fenceChar, fenceChar, fenceChar]) = true
    unfold List.isSuffixOf
    have h1 : (t.data ++ ['\n', fenceChar, fenceChar, fenceChar]).reverse =
        ("\n```" : String).data.reverse ++ t.data.reverse := by
      rw [List.reverse_append]
      rfl
    rw [h1]
    exact isPrefixOf_append_self _ _
  have hdropRight : strDropRight (String.mk (t.data ++ ['\n', fenceChar, fenceChar, fenceChar])) 4 = t := by
    unfold strDropRight
    show String.mk ((t.data ++ ['\n', fenceChar, fenceChar, fenceChar]).take
      ((t.data ++ ['\n', fenceChar, fenceChar, fenceChar]).length - 4)) = t
    have hlen : (t.data ++ ['\n', fenceChar, fenceChar, fenceChar]).length - 4 = t.data.length := by
      simp
    rw [hlen, List.take_left, str_mk_data]
  unfold stripJsonFence
  rw [htrim]
  simp [hstart7, hstart8, hdrop, hend, hdropRight]

/-- C4 witness: the theorem applied at the concrete fence-free response text
`[1, 2]`. -/
theorem stripJsonFence_spec_witness :
    stripJsonFence ("```json\n" ++ "[1, 2]" ++ "\n```") = stripJsonFence "[1, 2]" ∧
    stripJsonFence "[1, 2]" = "[1, 2]" :=
  stripJsonFence_spec "[1, 2]" (by decide) (by decide)
